import Mathlib

/-!
Shallow embedding of PixelFree's album refresh and two-layer caching pipeline:
the query resolver (`backend/services/photoFetcher.js`), the refresh scheduler
(`services/albumScheduler.js`), and the metadata store repositories
(`photoRepo.js`, `albumRepo.js`).

Modelling conventions:
- ISO timestamp strings that the code only ever compares via `new Date(...)`
  are modelled as epoch milliseconds (`Int`); `Date` parsing is monotone and
  injective on the ISO strings produced by the code.
- Network effects are modelled by passing the remote responses as explicit
  function arguments; `Promise.all` over sub-fetches is modelled as a
  sequence of `Except` results whose first error aborts the whole batch.
- `Math.random()` draws are passed in as an explicit rational argument
  `rand` in `[0,1]`; `rand = 1/2` is the jitter-neutral draw.
-/

namespace PixelFree

/-- JS `Number(x) || d` on an optional numeric field: absent (`NaN`) or `0`
falls back to the default `d`. -/
def jsOrI (a : Option Int) (d : Int) : Int :=
  match a with
  | some n => if n = 0 then d else n
  | none => d

/-- JS `s || d` on an optional string: absent or empty falls back to `d`. -/
def jsOrS (a : Option String) (d : String) : String :=
  match a with
  | some s => if s = "" then d else s
  | none => d

/-- JS `a || b` on two optional strings (empty string is falsy). -/
def jsOrOS (a b : Option String) : Option String :=
  match a with
  | some s => if s = "" then b else some s
  | none => b

/-- Helper `clamp(n, lo, hi)` from photoFetcher.js: `Math.max(lo, Math.min(hi, n))`. -/
def clamp (n lo hi : Int) : Int := max lo (min hi n)

/-- JS `toLowerCase()`, modelled character-wise over the string's data
(ASCII case mapping). -/
def lowerStr (s : String) : String := ⟨s.data.map Char.toLower⟩

/-- JS `trim()`: drop leading and trailing whitespace. -/
def trimStr (s : String) : String :=
  ⟨((s.data.dropWhile Char.isWhitespace).reverse.dropWhile Char.isWhitespace).reverse⟩

/-- JS `String(s).replace(/^#/, '')`: strips a single leading `#`. -/
def stripHash (s : String) : String :=
  match s.data with
  | c :: rest => if c = '#' then ⟨rest⟩ else s
  | [] => s

/-- Tag normalization helper `norm` from photoFetcher.js:
`t => String(t || '').toLowerCase()`. -/
def norm (t : String) : String := lowerStr t

/-- Author sub-record of a normalized photo (from `st.account`). -/
structure Author where
  id : Option String
  acct : Option String
  username : Option String
  display_name : Option String
  avatar : Option String
deriving Repr, DecidableEq

/-- One media attachment of a remote status. -/
structure MediaAttachment where
  mediaType : Option String
  url : Option String
  preview_url : Option String
  remote_url : Option String
deriving Repr, DecidableEq

/-- A remote status (Mastodon/Pixelfed post), with the fields the fetcher
reads. `tags` models `st.tags` after the per-element string/object name
extraction. `created_at` is epoch milliseconds. -/
structure Status where
  id : String
  created_at : Int
  account : Option Author
  content : Option String
  caption : Option String
  url : Option String
  uri : Option String
  tags : List String
  media_attachments : List MediaAttachment
deriving Repr, DecidableEq

/-- The normalized `Photo` shape produced by the fetcher. -/
structure Photo where
  id : String
  created_at : Int
  author : Option Author
  author_display_name : Option String
  caption : Option String
  post_url : Option String
  tags : List String
  url : Option String
  preview_url : Option String
deriving Repr, DecidableEq

/-- Predicate `hasAllTags(postTags, required)` from photoFetcher.js: every required tag
is present (case-insensitively) in the post's tag set. -/
def hasAllTags (postTags required : List String) : Bool :=
  if required.length = 0 then true
  else required.all (fun t => (postTags.map norm).contains (norm t))

/-- Predicate `hasAnyTag(postTags, required)` from photoFetcher.js: at least one
required tag is present (case-insensitively) in the post's tag set. -/
def hasAnyTag (postTags required : List String) : Bool :=
  if required.length = 0 then true
  else required.any (fun t => (postTags.map norm).contains (norm t))

/-- The local tag-mode filter applied by the tag-only and compound paths:
`tagmode === 'all' ? hasAllTags(p.tags, tags) : hasAnyTag(p.tags, tags)`. -/
def tagPred (tagmode : String) (tags : List String) (p : Photo) : Bool :=
  if tagmode = "all" then hasAllTags p.tags tags else hasAnyTag p.tags tags

/-- An empty author object (`{}` in `st.account || st.author || {}`). -/
def emptyAuthor : Author := ⟨none, none, none, none, none⟩

/-- Normalizer `normalizeStatusesToPhotos` from photoFetcher.js: one photo per image
attachment (attachments with a truthy non-`image` type are skipped). -/
def normalizeStatusesToPhotos (statuses : List Status) : List Photo :=
  statuses.flatMap (fun st =>
    let author := st.account.getD emptyAuthor
    let tags := st.tags.filter (fun t => t ≠ "")
    (st.media_attachments.filter (fun m =>
        match m.mediaType with
        | some ty => ty = "" || ty = "image"
        | none => true)).map (fun m =>
      { id := st.id
        created_at := st.created_at
        author := some author
        author_display_name := some (jsOrS author.display_name (jsOrS author.username ""))
        caption := some (jsOrS st.content (jsOrS st.caption ""))
        post_url := jsOrOS st.url st.uri
        tags := tags
        url := jsOrOS m.url (jsOrOS m.remote_url m.preview_url)
        preview_url := jsOrOS m.preview_url m.url }))

/-- Normalizer `statusToPhotos` from photoFetcher.js (user-statuses path): one photo per
attachment with `type === 'image'` and a truthy `url`. -/
def statusToPhotos (status : Status) : List Photo :=
  (status.media_attachments.filter (fun m =>
      m.mediaType = some "image" && (match m.url with
        | some u => u ≠ ""
        | none => false))).map (fun m =>
    { id := status.id
      created_at := status.created_at
      author := status.account.map (fun a => a)
      author_display_name := status.account.bind (fun a => a.display_name)
      caption := status.content
      post_url := status.url
      tags := status.tags
      url := m.url
      preview_url := jsOrOS m.preview_url m.url })

/-- Helper `dedupeById` from photoFetcher.js: keep the first occurrence of each id,
in order (the `seen` set threaded through the loop). -/
def dedupeByIdAux : List Photo → List String → List Photo
  | [], _ => []
  | p :: rest, seen =>
    if p.id ∈ seen then dedupeByIdAux rest seen
    else p :: dedupeByIdAux rest (p.id :: seen)

def dedupeById (l : List Photo) : List Photo := dedupeByIdAux l []

/-- One step of building a JS `Map` keyed by `p.id`: a later entry replaces
the value but keeps the first occurrence's position. -/
def mapUpsert (acc : List Photo) (p : Photo) : List Photo :=
  if acc.any (fun q => q.id = p.id) then
    acc.map (fun q => if q.id = p.id then p else q)
  else acc ++ [p]

/-- JS `[...new Map(list.map(p => [p.id, p])).values()]`: union by status id,
last write wins on the value, first occurrence fixes the position. -/
def unionById (l : List Photo) : List Photo := l.foldl mapUpsert []

/-- Newest-first comparator used by all three query paths:
`(a, b) => new Date(b.created_at) - new Date(a.created_at)` (a stable sort). -/
def newerThan (p q : Photo) : Prop := q.created_at < p.created_at

instance : DecidableRel newerThan := fun p q => by
  unfold newerThan; infer_instance

/-- Stable newest-first sort by `created_at` (JS `Array.prototype.sort` is
stable). -/
def sortByCreatedDesc (l : List Photo) : List Photo := l.insertionSort newerThan

/-- The typed error classes thrown by the fetch layer (`modules/errors.js`),
restricted to the classes the resolver can raise. `rateLimit` carries the
optional `retryAfter` seconds. -/
inductive FetchError where
  | rateLimit (retryAfter : Option Nat)
  | upstream
deriving Repr, DecidableEq

/-- An HTTP fetch of the remote tag-timeline endpoint either fails at the
network layer or yields a response with a status code, an optional numeric
`Retry-After` header, and a body (`[]` when the body is not a JSON array). -/
inductive HttpFetchResult where
  | networkFailure
  | response (status : Nat) (retryAfterHeader : Option Nat) (body : List Status)
deriving Repr, DecidableEq

/-- JS `Number(res.headers.get('retry-after')) || undefined`: an absent header
parses to `0` and `0` is falsy, so both become `undefined`. -/
def retryAfterOf (header : Option Nat) : Option Nat :=
  match header with
  | some n => if n = 0 then none else some n
  | none => none

/-- Outcome classification of `fetchTagTimeline` (photoFetcher.js lines
102-138), as a function of the HTTP outcome: network failure raises
`UpstreamError`; 429 raises `RateLimitError` with the optional header;
5xx raises `UpstreamError`; any other non-2xx (`!res.ok`) yields `[]`;
2xx yields the normalized photos. -/
def fetchTagTimeline : HttpFetchResult → Except FetchError (List Photo)
  | .networkFailure => .error .upstream
  | .response status retryAfterHeader body =>
    if status = 429 then .error (.rateLimit (retryAfterOf retryAfterHeader))
    else if 500 ≤ status then .error .upstream
    else if ¬ (200 ≤ status ∧ status ≤ 299) then .ok []
    else .ok (normalizeStatusesToPhotos body)

/-- A batch of sub-fetches run with `Promise.all`: the first error rejects
the whole batch, otherwise all results are collected in order. -/
def seqExcept {α : Type} : List (Except FetchError α) → Except FetchError (List α)
  | [] => .ok []
  | .error e :: _ => .error e
  | .ok a :: rest => (seqExcept rest).map (fun l => a :: l)

/-- The options record `{ limit, tagmode }` passed to the query entry
points; both fields may be absent. -/
structure FetchOpts where
  limit : Option Int
  tagmode : Option String
deriving Repr, DecidableEq

/-- The effective limit of every entry point:
`clamp(Number(opts.limit) || 20, 1, 40)`. -/
def clampLimit (l : Option Int) : Int := clamp (jsOrI l 20) 1 40

/-- The effective tagmode: `String(opts.tagmode || 'any').toLowerCase()`. -/
def tagmodeOf (t : Option String) : String := lowerStr (jsOrS t "any")

/-- Tag-input cleanup of the tag paths:
`.map(s => String(s).replace(/^#/, '').trim()).filter(Boolean)`. -/
def tagsClean (tagsInput : List String) : List String :=
  (tagsInput.map (fun s => trimStr (stripHash s))).filter (fun s => s ≠ "")

/-- Entry point `getLatestPhotosForTags(tagsInput, opts)` (photoFetcher.js lines
187-216). `fetchTag` stands for `fetchTagTimeline`'s network behavior: it
maps a tag and the requested per-tag limit (the headroom) to that sub-fetch's
outcome. -/
def getLatestPhotosForTags (fetchTag : String → Int → Except FetchError (List Photo))
    (tagsInput : List String) (opts : FetchOpts) : Except FetchError (List Photo) :=
  if (tagsClean tagsInput).length = 0 then .ok []
  else
    match seqExcept ((tagsClean tagsInput).map (fun t =>
        fetchTag t (min (clampLimit opts.limit * 5) 200))) with
    | .error e => .error e
    | .ok perTagLists =>
      .ok ((sortByCreatedDesc ((unionById perTagLists.flatten).filter
        (tagPred (tagmodeOf opts.tagmode) (tagsClean tagsInput)))).take
          (clampLimit opts.limit).toNat)

/-- Entry point `getLatestPhotosForUsers(accountIds, opts)` (photoFetcher.js lines
218-234). `apiGet` stands for the sequential
`GET /api/v1/accounts/{id}/statuses` calls: it maps an account id and the
per-account limit to that sub-fetch's outcome (`[]` models a non-array
`data`). The per-account limit is `clamp(Math.ceil(limit * 1.5), 10, 40)`. -/
def getLatestPhotosForUsers (apiGet : String → Int → Except FetchError (List Status))
    (accountIds : List String) (opts : FetchOpts) : Except FetchError (List Photo) :=
  match seqExcept (accountIds.map (fun i =>
      apiGet i (clamp ⌈(clampLimit opts.limit : ℚ) * (3 / 2)⌉ 10 40))) with
  | .error e => .error e
  | .ok datas =>
    .ok ((dedupeById (sortByCreatedDesc ((datas.flatten.map statusToPhotos).flatten))).take
      (clampLimit opts.limit).toNat)

/-- The input record of the compound path: `{ tags, accountIds }`. -/
structure CompoundInput where
  tags : List String
  accountIds : List String
deriving Repr, DecidableEq

/-- Entry point `getLatestPhotosCompound(input, opts)` (photoFetcher.js lines 236-264):
degrades to the single-criterion paths when only tags or only users are
supplied; otherwise fetches user posts with headroom `min(limit*3, 120)`
through `getLatestPhotosForUsers` and filters them locally by tagmode. -/
def getLatestPhotosCompound (apiGet : String → Int → Except FetchError (List Status))
    (fetchTag : String → Int → Except FetchError (List Photo))
    (input : CompoundInput) (opts : FetchOpts) : Except FetchError (List Photo) :=
  if (tagsClean input.tags).length ≠ 0
      ∧ (input.accountIds.filter (fun u => u ≠ "")).length = 0 then
    getLatestPhotosForTags fetchTag (tagsClean input.tags)
      { limit := some (clampLimit opts.limit), tagmode := some (tagmodeOf opts.tagmode) }
  else if (input.accountIds.filter (fun u => u ≠ "")).length ≠ 0
      ∧ (tagsClean input.tags).length = 0 then
    getLatestPhotosForUsers apiGet (input.accountIds.filter (fun u => u ≠ ""))
      { limit := some (clampLimit opts.limit), tagmode := none }
  else
    match getLatestPhotosForUsers apiGet (input.accountIds.filter (fun u => u ≠ ""))
        { limit := some (min (clampLimit opts.limit * 3) 120), tagmode := none } with
    | .error e => .error e
    | .ok userPosts =>
      .ok ((sortByCreatedDesc (userPosts.filter
        (tagPred (tagmodeOf opts.tagmode) (tagsClean input.tags)))).take
          (clampLimit opts.limit).toNat)

/-! Refresh scheduler (`services/albumScheduler.js`). -/

/-- Constant `MAX_BACKOFF_MS = 6 * 60 * 60 * 1000` (6 hours). -/
def MAX_BACKOFF_MS : Int := 6 * 60 * 60 * 1000

/-- Constant `JITTER_PERCENTAGE = 10`. -/
def JITTER_PERCENTAGE : ℚ := 10

/-- Default `baseMs` of `calculateBackoff`: `60 * 1000`. -/
def BASE_BACKOFF_MS : Int := 60 * 1000

/-- Jitter `addJitter(ms)`: `Math.round(ms + (Math.random() - 0.5) * 2 * jitter)`
with `jitter = ms * (JITTER_PERCENTAGE / 100)`; the `Math.random()` draw in
`[0,1)` is the explicit argument `rand` (`1/2` is jitter-neutral). -/
def addJitter (ms : ℚ) (rand : ℚ) : Int :=
  round (ms + (rand - 1 / 2) * 2 * (ms * (JITTER_PERCENTAGE / 100)))

/-- Backoff `calculateBackoff(attemptCount)` with the default base:
`Math.min(baseMs * Math.pow(2, attemptCount), MAX_BACKOFF_MS)`, jittered. -/
def calculateBackoff (attemptCount : Nat) (rand : ℚ) : Int :=
  addJitter ((min (BASE_BACKOFF_MS * 2 ^ attemptCount) MAX_BACKOFF_MS : Int) : ℚ) rand

/-- The refresh-state record stored in `album.refresh_json`; every field may
be absent in the parsed JSON. Timestamps are epoch milliseconds. -/
structure RefreshState where
  last_checked_at : Option Int
  backoff_until : Option Int
  since_id : Option String
  retry_count : Option Nat
  last_error : Option String
  refresh_interval_ms : Option Int
deriving Repr, DecidableEq

/-- A fresh refresh state (`JSON.parse('{}')`). -/
def emptyRefresh : RefreshState := ⟨none, none, none, none, none, none⟩

/-- The album fields `isDueForRefresh` reads. -/
structure Album where
  enabled : Bool
  refresh : RefreshState
deriving Repr, DecidableEq

/-- Due test `isDueForRefresh(album)` (albumScheduler.js lines 73-90). `now` is the
evaluation time, `rand` the jitter draw re-rolled for this evaluation, and
`defaultIntervalMs` the settings fallback of `getDefaultRefreshInterval`. -/
def isDueForRefresh (album : Album) (now : Int) (rand : ℚ) (defaultIntervalMs : Int) : Bool :=
  if !album.enabled then false
  else
    let refresh := album.refresh
    let checkInterval : Bool :=
      let lastChecked := refresh.last_checked_at.getD 0
      let refreshInterval := jsOrI refresh.refresh_interval_ms defaultIntervalMs
      decide (lastChecked + addJitter (refreshInterval : ℚ) rand ≤ now)
    match refresh.backoff_until with
    | some backoffUntil => if now < backoffUntil then false else checkInterval
    | none => checkInterval

/-- One step of the `candidates.reduce(...)` of `refreshAlbum`:
`!newest || new Date(post.created_at) > new Date(newest.created_at) ? post : newest`. -/
def newerOf (newest : Option Photo) (post : Photo) : Option Photo :=
  match newest with
  | none => some post
  | some n => if n.created_at < post.created_at then some post else some n

/-- The `candidates.reduce(..., null)` of `refreshAlbum`: the first candidate
with the strictly greatest `created_at` (later candidates replace only on a
strictly newer timestamp). -/
def newestPost (candidates : List Photo) : Option Photo :=
  candidates.foldl newerOf none

/-- The success transition of `refreshAlbum` (albumScheduler.js lines
136-157): advance `since_id` to the newest candidate's id (unchanged when no
candidates), clear `backoff_until` and `last_error`, reset `retry_count`,
and stamp `last_checked_at = now`. -/
def successRefresh (refresh : RefreshState) (candidates : List Photo) (now : Int) :
    RefreshState :=
  let newSinceId :=
    if 0 < candidates.length then
      match newestPost candidates with
      | some p => some p.id
      | none => refresh.since_id
    else refresh.since_id
  { refresh with
    last_checked_at := some now
    since_id := newSinceId
    backoff_until := none
    last_error := none
    retry_count := some 0 }

/-- The rate-limited transition of `refreshAlbum` (albumScheduler.js lines
166-182): increment the retry count first, compute the backoff from the
incremented count, and stamp `backoff_until`, `last_error`,
`last_checked_at`. -/
def rateLimitRefresh (refresh : RefreshState) (now : Int) (rand : ℚ) (errMessage : String) :
    RefreshState :=
  let retryCount := refresh.retry_count.getD 0 + 1
  let backoffMs := calculateBackoff retryCount rand
  { refresh with
    backoff_until := some (now + backoffMs)
    last_error := some errMessage
    retry_count := some retryCount
    last_checked_at := some now }

/-- The other-errors transition of `refreshAlbum` (albumScheduler.js lines
183-192): record the error and stamp `last_checked_at`; no backoff, retry
count untouched. -/
def otherErrorRefresh (refresh : RefreshState) (now : Int) (errMessage : String) :
    RefreshState :=
  { refresh with
    last_error := some errMessage
    last_checked_at := some now }

/-- Modelled from the spec: the rate-limited backoff target the spec's
formula prescribes, `backoffUntil = now + min(baseBackoff * 2^retryCount,
maxBackoff)` (ignoring jitter), computed from the album's current (not yet
incremented) `retryCount`. Kept separate from `rateLimitRefresh`, the
embedding of the code, to compare the two. -/
def specRateLimitedBackoffUntil (refresh : RefreshState) (now : Int) : Int :=
  now + min (BASE_BACKOFF_MS * 2 ^ refresh.retry_count.getD 0) MAX_BACKOFF_MS

/-! Metadata store: photos repository (`photoRepo.js`) and album membership
(`albumRepo.js`), over the SQLite schema (`schema.sql`): `photos` has
primary key `status_id`, `album_items` has primary key
`(album_id, status_id)`. Tables are modelled as row lists in insertion
order. -/

/-- JS `Array.from(new Set(...))`: deduplicate keeping first occurrences. -/
def dedupStrAux : List String → List String → List String
  | [], _ => []
  | s :: rest, seen =>
    if s ∈ seen then dedupStrAux rest seen
    else s :: dedupStrAux rest (s :: seen)

def dedupStr (l : List String) : List String := dedupStrAux l []

/-- An input record of `upsertMany`; every field the repository reads may be
absent. -/
structure PhotoInput where
  status_id : Option String
  id : Option String
  created_at : Option Int
  author : Option Author
  author_display_name : Option String
  caption : Option String
  content : Option String
  post_url : Option String
  status_url : Option String
  tags : Option (List String)
  url : Option String
  preview_url : Option String
deriving Repr, DecidableEq

/-- A row of the `photos` table. `tags_json` models the stored JSON array
(`null` when the normalized list is empty or absent). -/
structure PhotoRow where
  status_id : String
  created_at : Option Int
  author_id : Option String
  author_acct : Option String
  author_username : Option String
  author_display : Option String
  author_avatar : Option String
  caption_html : Option String
  post_url : Option String
  tags_json : Option (List String)
  url : Option String
  preview_url : Option String
  fetched_at : Int
deriving Repr, DecidableEq

/-- JS `const sid = p?.status_id ?? p?.id; if (!sid) continue;` — the derived
primary key, `none` when both fields are nullish or the result is the empty
string. -/
def effectiveKey (p : PhotoInput) : Option String :=
  match p.status_id.orElse (fun _ => p.id) with
  | some s => if s = "" then none else some s
  | none => none

/-- Tag-list normalization of `upsertMany`: strip one leading `#`, trim,
lowercase, drop empties, deduplicate. -/
def normalizeTagList (ts : List String) : List String :=
  dedupStr ((ts.map (fun t => lowerStr (trimStr (stripHash t)))).filter (fun t => t ≠ ""))

/-- The stored `tags_json` value: `null` when nothing remains after
normalization or the input is not an array. -/
def normalizeTags (tags : Option (List String)) : Option (List String) :=
  match tags with
  | none => none
  | some ts =>
    if (normalizeTagList ts).length = 0 then none else some (normalizeTagList ts)

/-- The row bound by `stmt.run(...)` in `upsertMany` for a record `p` with
derived key `sid`, at transaction time `now` (`fetched_at = nowIso`). -/
def rowOf (now : Int) (p : PhotoInput) (sid : String) : PhotoRow :=
  { status_id := sid
    created_at := p.created_at
    author_id := p.author.bind (fun a => a.id)
    author_acct := p.author.bind (fun a => a.acct)
    author_username := p.author.bind (fun a => a.username)
    author_display := p.author_display_name.orElse (fun _ => p.author.bind (fun a => a.display_name))
    author_avatar := p.author.bind (fun a => a.avatar)
    caption_html := p.caption.orElse (fun _ => p.content)
    post_url := p.post_url.orElse (fun _ => p.status_url)
    tags_json := normalizeTags p.tags
    url := p.url
    preview_url := p.preview_url.orElse (fun _ => p.url)
    fetched_at := now }

/-- SQL `INSERT ... ON CONFLICT(status_id) DO UPDATE`: replace the row holding
the key if present, else append. -/
def upsertRow (table : List PhotoRow) (row : PhotoRow) : List PhotoRow :=
  if table.any (fun r => r.status_id = row.status_id) then
    table.map (fun r => if r.status_id = row.status_id then row else r)
  else table ++ [row]

/-- Repository `upsertMany(photos)` (photoRepo.js lines 4-72): upsert each record in
order, skipping records without a derivable key, and collect the keys of the
processed records. Returns the updated table and the collected ids. -/
def upsertMany (now : Int) (table : List PhotoRow) (photos : List PhotoInput) :
    List PhotoRow × List String :=
  photos.foldl
    (fun acc p =>
      match effectiveKey p with
      | none => acc
      | some sid => (upsertRow acc.1 (rowOf now p sid), acc.2 ++ [sid]))
    (table, [])

/-- A row of the `album_items` membership table. -/
structure AlbumItem where
  album_id : String
  status_id : String
  added_at : Int
deriving Repr, DecidableEq

/-- Whether the membership table already holds the `(albumId, statusId)`
edge (the `album_items` primary key). -/
def hasEdge (table : List AlbumItem) (albumId statusId : String) : Bool :=
  table.any (fun e => e.album_id = albumId && e.status_id = statusId)

/-- Repository `addPhotos(albumId, statusIds)` (albumRepo.js lines 157-178):
`INSERT OR IGNORE` each edge with `added_at = nowIso`, counting only the
newly inserted ones. Returns the updated table and the inserted count. -/
def addPhotos (now : Int) (table : List AlbumItem) (albumId : String)
    (statusIds : List String) : List AlbumItem × Nat :=
  if statusIds.length = 0 then (table, 0)
  else
    statusIds.foldl
      (fun acc sid =>
        if hasEdge acc.1 albumId sid then acc
        else (acc.1 ++ [⟨albumId, sid, now⟩], acc.2 + 1))
      (table, 0)

/-! Concrete sample photos used by the testable-property claims. -/

/-- Sample candidate with tag set `{a, b}`. -/
def photoAB : Photo := ⟨"1", 3, none, none, none, none, ["a", "b"], none, none⟩

/-- Sample candidate with tag set `{a}`. -/
def photoA : Photo := ⟨"2", 2, none, none, none, none, ["a"], none, none⟩

/-- Sample candidate with tag set `{b, c}`. -/
def photoBC : Photo := ⟨"3", 1, none, none, none, none, ["b", "c"], none, none⟩

/-! Theorems. -/

/-- C4: for every candidate photo and non-empty requested tag list,
`tagmode=all` accepts exactly when every requested tag is present
(case-insensitively) in the photo's tag set and `tagmode=any` exactly when
at least one is; on candidates with tag sets `{a,b}`, `{a}`, `{b,c}` and
`tags=[a,b]`, `all` keeps only the first and `any` keeps all three. -/
theorem c4_tag_filter_modes :
    (∀ (postTags required : List String), required ≠ [] →
      (hasAllTags postTags required = true ↔
        ∀ t ∈ required, norm t ∈ postTags.map norm) ∧
      (hasAnyTag postTags required = true ↔
        ∃ t ∈ required, norm t ∈ postTags.map norm))
    ∧ [photoAB, photoA, photoBC].filter (tagPred "all" ["a", "b"]) = [photoAB]
    ∧ [photoAB, photoA, photoBC].filter (tagPred "any" ["a", "b"])
        = [photoAB, photoA, photoBC] := by
  refine ⟨fun postTags required hne => ⟨?_, ?_⟩, by decide, by decide⟩
  · simp [hasAllTags, List.length_eq_zero.not.mpr hne, List.all_eq_true]
  · simp [hasAnyTag, List.length_eq_zero.not.mpr hne, List.any_eq_true]

/-- Witness for C4 at a concrete input. -/
theorem c4_witness : hasAllTags ["b", "A"] ["a"] = true :=
  ((c4_tag_filter_modes.1 ["b", "A"] ["a"] (by decide)).1).mpr (by decide)

/-- The `status_id` column of a photos table, in row order. -/
def rowKeys (table : List PhotoRow) : List String :=
  table.map (fun r => r.status_id)

lemma rowKeys_replace (table : List PhotoRow) (row : PhotoRow) :
    rowKeys (table.map (fun r => if r.status_id = row.status_id then row else r))
      = rowKeys table := by
  unfold rowKeys
  rw [List.map_map]
  refine List.map_congr_left (fun r _ => ?_)
  by_cases h : r.status_id = row.status_id <;> simp [h]

lemma nodup_rowKeys_upsertRow (table : List PhotoRow) (row : PhotoRow)
    (h : (rowKeys table).Nodup) : (rowKeys (upsertRow table row)).Nodup := by
  cases hany : table.any (fun r => r.status_id = row.status_id) with
  | true => simpa [upsertRow, hany, rowKeys_replace] using h
  | false =>
    have hno : ∀ r ∈ table, ¬ r.status_id = row.status_id := by
      simpa using List.any_eq_false.mp hany
    simp only [upsertRow, hany, if_false, Bool.false_eq_true, rowKeys,
      List.map_append, List.map_cons, List.map_nil]
    refine List.Nodup.append h (List.nodup_singleton _) ?_
    intro k hk hk1
    obtain ⟨r, hr, hrk⟩ := List.mem_map.mp hk
    rcases List.mem_singleton.mp hk1 with rfl
    exact hno r hr hrk

lemma upsertRow_key_val (table : List PhotoRow) (row : PhotoRow) :
    ∀ r ∈ upsertRow table row, r.status_id = row.status_id → r = row := by
  cases hany : table.any (fun r => r.status_id = row.status_id) with
  | true =>
    simp only [upsertRow, hany, if_true]
    intro r hr hk
    obtain ⟨q, _, rfl⟩ := List.mem_map.mp hr
    by_cases h : q.status_id = row.status_id <;> simp_all
  | false =>
    have hno : ∀ r ∈ table, ¬ r.status_id = row.status_id := by
      simpa using List.any_eq_false.mp hany
    simp only [upsertRow, hany, if_false, Bool.false_eq_true]
    intro r hr hk
    rcases List.mem_append.mp hr with h | h
    · exact absurd hk (hno r h)
    · exact List.mem_singleton.mp h

lemma dedupStrAux_spec (l : List String) :
    ∀ seen, (dedupStrAux l seen).Nodup ∧ ∀ s ∈ dedupStrAux l seen, s ∉ seen := by
  induction l with
  | nil => intro seen; exact ⟨List.nodup_nil, by simp [dedupStrAux]⟩
  | cons s rest ih =>
    intro seen
    unfold dedupStrAux
    by_cases hs : s ∈ seen
    · simpa [hs] using ih seen
    · rw [if_neg hs]
      obtain ⟨hnd, hmem⟩ := ih (s :: seen)
      refine ⟨List.nodup_cons.mpr
        ⟨fun hc => (hmem s hc) (List.mem_cons_self s seen), hnd⟩, ?_⟩
      intro t ht
      rcases List.mem_cons.mp ht with rfl | ht2
      · exact hs
      · exact fun hts => (hmem t ht2) (List.mem_cons_of_mem _ hts)

lemma dedupStr_nodup (l : List String) : (dedupStr l).Nodup :=
  (dedupStrAux_spec l []).1

lemma countKey_replace (row : PhotoRow) : ∀ (xs : List PhotoRow),
    (rowKeys xs).Nodup → xs.any (fun r => r.status_id = row.status_id) = true →
    ((xs.map (fun r => if r.status_id = row.status_id then row else r)).filter
      (fun r => r.status_id = row.status_id)).length = 1 := by
  intro xs
  induction xs with
  | nil => intro _ hany; simp at hany
  | cons x xs ih =>
    intro h hany
    rw [rowKeys, List.map_cons, List.nodup_cons] at h
    by_cases hx : x.status_id = row.status_id
    · rw [List.map_cons, if_pos hx, List.filter_cons_of_pos (by simp)]
      have hxs : ∀ r ∈ xs, ¬ r.status_id = row.status_id := by
        intro r hr hrk
        exact h.1 (List.mem_map.mpr ⟨r, hr, by rw [hrk, hx]⟩)
      have hnil : (xs.map (fun r =>
          if r.status_id = row.status_id then row else r)).filter
            (fun r => r.status_id = row.status_id) = [] := by
        refine List.filter_eq_nil_iff.mpr ?_
        intro a ha
        obtain ⟨r, hr, rfl⟩ := List.mem_map.mp ha
        simp [if_neg (hxs r hr), hxs r hr]
      rw [hnil]
      rfl
    · rw [List.map_cons, if_neg hx, List.filter_cons_of_neg (by simpa using hx)]
      have hany2 : xs.any (fun r => r.status_id = row.status_id) = true := by
        rcases List.any_eq_true.mp hany with ⟨r, hr, hrk⟩
        rcases List.mem_cons.mp hr with rfl | hmem
        · exact absurd (by simpa using hrk) hx
        · exact List.any_eq_true.mpr ⟨r, hmem, hrk⟩
      exact ih h.2 hany2

lemma countKey_upsertRow (table : List PhotoRow) (row : PhotoRow)
    (h : (rowKeys table).Nodup) :
    ((upsertRow table row).filter (fun r => r.status_id = row.status_id)).length = 1 := by
  cases hany : table.any (fun r => r.status_id = row.status_id) with
  | true =>
    have := countKey_replace row table h hany
    simpa [upsertRow, hany] using this
  | false =>
    have hno : ∀ r ∈ table, ¬ r.status_id = row.status_id := by
      simpa using List.any_eq_false.mp hany
    simp only [upsertRow, hany, if_false, Bool.false_eq_true]
    rw [List.filter_append,
      List.filter_eq_nil_iff.mpr (fun r hr => by simpa using hno r hr)]
    simp

/-- C8: upserting two records carrying the same status id (in particular the
same record twice) leaves exactly one row under that key, holding the second
record's values; key uniqueness of the table is preserved; records with no
derivable id are skipped; tag lists are normalized (strip one leading `#`,
lowercase, deduplicate) before storing. -/
theorem c8_upsert_idempotent :
    (∀ (now : Int) (table : List PhotoRow) (p1 p2 : PhotoInput) (sid : String),
      (rowKeys table).Nodup →
      effectiveKey p1 = some sid → effectiveKey p2 = some sid →
      (rowKeys (upsertMany now table [p1, p2]).1).Nodup
      ∧ ((upsertMany now table [p1, p2]).1.filter
          (fun r => r.status_id = sid)).length = 1
      ∧ (∀ r ∈ (upsertMany now table [p1, p2]).1,
          r.status_id = sid → r = rowOf now p2 sid)
      ∧ (upsertMany now table [p1, p2]).2 = [sid, sid])
    ∧ (∀ (now1 now2 : Int) (table : List PhotoRow) (p : PhotoInput) (sid : String),
        (rowKeys table).Nodup → effectiveKey p = some sid →
        (rowKeys (upsertMany now2 (upsertMany now1 table [p]).1 [p]).1).Nodup
        ∧ ((upsertMany now2 (upsertMany now1 table [p]).1 [p]).1.filter
            (fun r => r.status_id = sid)).length = 1
        ∧ (∀ r ∈ (upsertMany now2 (upsertMany now1 table [p]).1 [p]).1,
            r.status_id = sid → r = rowOf now2 p sid))
    ∧ (∀ (now : Int) (table : List PhotoRow) (p : PhotoInput),
        effectiveKey p = none → upsertMany now table [p] = (table, []))
    ∧ (∀ (ts l : List String), normalizeTags (some ts) = some l → l.Nodup)
    ∧ normalizeTags (some ["#Italy", "france", "#RetroComputing"])
        = some ["italy", "france", "retrocomputing"] := by
  refine ⟨?_, ?_, ?_, ?_, by decide⟩
  · intro now table p1 p2 sid hnd hk1 hk2
    have hstep : (upsertMany now table [p1, p2]).1
        = upsertRow (upsertRow table (rowOf now p1 sid)) (rowOf now p2 sid) := by
      simp [upsertMany, hk1, hk2]
    have hids : (upsertMany now table [p1, p2]).2 = [sid, sid] := by
      simp [upsertMany, hk1, hk2]
    have hnd1 : (rowKeys (upsertRow table (rowOf now p1 sid))).Nodup :=
      nodup_rowKeys_upsertRow _ _ hnd
    have hnd2 := nodup_rowKeys_upsertRow (upsertRow table (rowOf now p1 sid))
      (rowOf now p2 sid) hnd1
    refine ⟨by rw [hstep]; exact hnd2, ?_, ?_, hids⟩
    · rw [hstep]
      have := countKey_upsertRow (upsertRow table (rowOf now p1 sid))
        (rowOf now p2 sid) hnd1
      simpa [rowOf] using this
    · rw [hstep]
      intro r hr hk
      have := upsertRow_key_val (upsertRow table (rowOf now p1 sid))
        (rowOf now p2 sid) r hr (by simpa [rowOf] using hk)
      exact this
  · intro now1 now2 table p sid hnd hk
    have hstep1 : (upsertMany now1 table [p]).1 = upsertRow table (rowOf now1 p sid) := by
      simp [upsertMany, hk]
    have hstep2 : (upsertMany now2 (upsertMany now1 table [p]).1 [p]).1
        = upsertRow (upsertRow table (rowOf now1 p sid)) (rowOf now2 p sid) := by
      rw [hstep1]
      simp [upsertMany, hk]
    have hnd1 : (rowKeys (upsertRow table (rowOf now1 p sid))).Nodup :=
      nodup_rowKeys_upsertRow _ _ hnd
    refine ⟨by rw [hstep2]; exact nodup_rowKeys_upsertRow _ _ hnd1, ?_, ?_⟩
    · rw [hstep2]
      have := countKey_upsertRow (upsertRow table (rowOf now1 p sid))
        (rowOf now2 p sid) hnd1
      simpa [rowOf] using this
    · rw [hstep2]
      intro r hr hkr
      exact upsertRow_key_val (upsertRow table (rowOf now1 p sid))
        (rowOf now2 p sid) r hr (by simpa [rowOf] using hkr)
  · intro now table p hk
    simp [upsertMany, hk]
  · intro ts l h
    have hsome : normalizeTags (some ts)
        = if (normalizeTagList ts).length = 0 then none
          else some (normalizeTagList ts) := rfl
    rw [hsome] at h
    by_cases hl : (normalizeTagList ts).length = 0
    · rw [if_pos hl] at h
      cases h
    · rw [if_neg hl] at h
      cases h
      exact dedupStr_nodup _

/-- The `(album_id, status_id)` primary-key pairs of a membership table. -/
def edgeKeys (table : List AlbumItem) : List (String × String) :=
  table.map (fun e => (e.album_id, e.status_id))

/-- C9: linking the same `(albumId, statusId)` pair twice adds exactly one
edge overall: the first call inserts it and returns 1, the second call is a
no-op returning 0, the table never holds two edges for the pair, and
pair-key uniqueness is preserved. -/
theorem c9_link_idempotent :
    ∀ (now1 now2 : Int) (table : List AlbumItem) (albumId sid : String),
      (edgeKeys table).Nodup →
      hasEdge table albumId sid = false →
      (addPhotos now1 table albumId [sid]).2 = 1
      ∧ (addPhotos now1 table albumId [sid]).1 = table ++ [⟨albumId, sid, now1⟩]
      ∧ addPhotos now2 (addPhotos now1 table albumId [sid]).1 albumId [sid]
          = ((addPhotos now1 table albumId [sid]).1, 0)
      ∧ (edgeKeys (addPhotos now1 table albumId [sid]).1).Nodup
      ∧ ((addPhotos now1 table albumId [sid]).1.filter
          (fun e => e.album_id = albumId && e.status_id = sid)).length = 1 := by
  intro now1 now2 table albumId sid hnd hedge
  have hno : ∀ e ∈ table, ¬ (e.album_id = albumId ∧ e.status_id = sid) := by
    intro e he hc
    have := List.any_eq_false.mp hedge e he
    simp [hc.1, hc.2] at this
  have h1 : addPhotos now1 table albumId [sid] = (table ++ [⟨albumId, sid, now1⟩], 1) := by
    simp [addPhotos, hedge]
  have hedge2 : hasEdge (table ++ [⟨albumId, sid, now1⟩]) albumId sid = true := by
    simp [hasEdge]
  have h2 : addPhotos now2 (table ++ [⟨albumId, sid, now1⟩]) albumId [sid]
      = (table ++ [⟨albumId, sid, now1⟩], 0) := by
    simp [addPhotos, hedge2]
  refine ⟨by rw [h1], by rw [h1], by rw [h1]; exact h2, ?_, ?_⟩
  · rw [h1]
    simp only [edgeKeys, List.map_append, List.map_cons, List.map_nil]
    refine List.Nodup.append hnd (List.nodup_singleton _) ?_
    intro k hk hk1
    obtain ⟨e, he, hek⟩ := List.mem_map.mp hk
    rcases List.mem_singleton.mp hk1 with rfl
    exact hno e he ⟨congrArg Prod.fst hek, congrArg Prod.snd hek⟩
  · rw [h1, List.filter_append,
      List.filter_eq_nil_iff.mpr (fun e he => by
        have := hno e he
        simp only [Bool.and_eq_true, decide_eq_true_eq]
        exact fun hc => this hc)]
    simp

/-- Witness for C9 at a concrete input. -/
theorem c9_witness :
    (addPhotos 1 ([] : List AlbumItem) "alb" ["s"]).2 = 1
    ∧ addPhotos 2 (addPhotos 1 ([] : List AlbumItem) "alb" ["s"]).1 "alb" ["s"]
        = ((addPhotos 1 ([] : List AlbumItem) "alb" ["s"]).1, 0) :=
  ⟨(c9_link_idempotent 1 2 [] "alb" "s" (by decide) (by decide)).1,
   (c9_link_idempotent 1 2 [] "alb" "s" (by decide) (by decide)).2.2.1⟩

/-- Witness for C8 at a concrete input. -/
theorem c8_witness :
    ((upsertMany 7 [] [⟨some "s", none, none, none, none, none, none, none,
        none, some ["#Italy", "italy"], none, none⟩,
      ⟨some "s", none, some 5, none, none, none, none, none, none, none,
        none, none⟩]).1.filter (fun r => r.status_id = "s")).length = 1 :=
  (c8_upsert_idempotent.1 7 [] _ _ "s" (by decide) (by decide) (by decide)).2.1

lemma newerOf_step (a p : Photo) :
    ∃ b, newerOf (some a) p = some b ∧ (b = a ∨ b = p)
      ∧ a.created_at ≤ b.created_at ∧ p.created_at ≤ b.created_at := by
  have hred : newerOf (some a) p
      = if a.created_at < p.created_at then some p else some a := rfl
  by_cases h : a.created_at < p.created_at
  · exact ⟨p, by rw [hred, if_pos h], Or.inr rfl, le_of_lt h, le_refl _⟩
  · exact ⟨a, by rw [hred, if_neg h], Or.inl rfl, le_refl _, le_of_not_lt h⟩

lemma foldl_newerOf (l : List Photo) : ∀ a : Photo,
    ∃ m, l.foldl newerOf (some a) = some m ∧ (m = a ∨ m ∈ l)
      ∧ a.created_at ≤ m.created_at ∧ ∀ q ∈ l, q.created_at ≤ m.created_at := by
  induction l with
  | nil => intro a; exact ⟨a, rfl, Or.inl rfl, le_refl _, by simp⟩
  | cons x xs ih =>
    intro a
    obtain ⟨b, hb, hbor, hab, hxb⟩ := newerOf_step a x
    obtain ⟨m, hm, hmor, hbm, hall⟩ := ih b
    refine ⟨m, ?_, ?_, le_trans hab hbm, ?_⟩
    · rw [List.foldl_cons, hb]; exact hm
    · rcases hmor with rfl | hmem
      · rcases hbor with rfl | rfl
        · exact Or.inl rfl
        · exact Or.inr (List.mem_cons_self _ _)
      · exact Or.inr (List.mem_cons_of_mem _ hmem)
    · intro q hq
      rcases List.mem_cons.mp hq with rfl | hq2
      · exact le_trans hxb hbm
      · exact hall q hq2

/-- C10: a successful refresh always clears `backoff_until` and
`last_error`, resets `retry_count` to 0 and stamps `last_checked_at = now`;
with no candidates `since_id` is left unchanged, and with candidates it
becomes the id of a candidate with the greatest `created_at`. -/
theorem c10_success_frame :
    ∀ (refresh : RefreshState) (now : Int) (candidates : List Photo),
      (successRefresh refresh candidates now).backoff_until = none
      ∧ (successRefresh refresh candidates now).last_error = none
      ∧ (successRefresh refresh candidates now).retry_count = some 0
      ∧ (successRefresh refresh candidates now).last_checked_at = some now
      ∧ (successRefresh refresh [] now).since_id = refresh.since_id
      ∧ (candidates ≠ [] → ∃ p, p ∈ candidates
          ∧ (successRefresh refresh candidates now).since_id = some p.id
          ∧ ∀ q ∈ candidates, q.created_at ≤ p.created_at) := by
  intro refresh now candidates
  refine ⟨rfl, rfl, rfl, rfl, rfl, ?_⟩
  intro hne
  match candidates, hne with
  | c :: cs, _ =>
    obtain ⟨m, hm, hmor, hcm, hall⟩ := foldl_newerOf cs c
    have hnp : newestPost (c :: cs) = some m := by
      unfold newestPost
      rw [List.foldl_cons]
      exact hm
    refine ⟨m, ?_, ?_, ?_⟩
    · rcases hmor with rfl | h
      · exact List.mem_cons_self _ _
      · exact List.mem_cons_of_mem _ h
    · simp [successRefresh, hnp]
    · intro q hq
      rcases List.mem_cons.mp hq with rfl | hq2
      · exact hcm
      · exact hall q hq2

/-- Witness for C10 at a concrete input. -/
theorem c10_witness :
    ∃ p, p ∈ [photoAB, photoA]
      ∧ (successRefresh emptyRefresh [photoAB, photoA] 5).since_id = some p.id
      ∧ ∀ q ∈ [photoAB, photoA], q.created_at ≤ p.created_at :=
  (c10_success_frame emptyRefresh 5 [photoAB, photoA]).2.2.2.2.2 (by decide)

/-- C6: the due test holds exactly when the album is enabled, `now` is not
before `backoff_until` (when set), and `now` has reached
`last_checked_at + jitter(interval)`; in particular a future `backoff_until`
excludes the album even when its interval has elapsed, and a disabled album
is never due. -/
theorem c6_due_check :
    ∀ (album : Album) (now : Int) (rand : ℚ) (defaultIntervalMs : Int),
      (isDueForRefresh album now rand defaultIntervalMs = true ↔
        (album.enabled = true
         ∧ (∀ b, album.refresh.backoff_until = some b → b ≤ now)
         ∧ album.refresh.last_checked_at.getD 0
             + addJitter ((jsOrI album.refresh.refresh_interval_ms defaultIntervalMs : Int) : ℚ)
                 rand ≤ now))
      ∧ (album.enabled = false → isDueForRefresh album now rand defaultIntervalMs = false)
      ∧ (∀ b, album.refresh.backoff_until = some b → now < b →
          isDueForRefresh album now rand defaultIntervalMs = false) := by
  intro album now rand d
  cases henb : album.enabled with
  | false => simp [isDueForRefresh, henb]
  | true =>
    cases hbo : album.refresh.backoff_until with
    | none =>
      simp [isDueForRefresh, henb, hbo]
    | some b =>
      by_cases hlt : now < b
      · simp [isDueForRefresh, henb, hbo, hlt]
      · simp [isDueForRefresh, henb, hbo, hlt]
        omega

/-- Sample album used to instantiate the C6 due-check: enabled, with a
pending backoff window and a short refresh interval. -/
def backoffAlbum : Album :=
  ⟨true, { emptyRefresh with backoff_until := some 100, refresh_interval_ms := some 10 }⟩

/-- Witness for C6 at a concrete input. -/
theorem c6_witness : isDueForRefresh backoffAlbum 50 (1 / 2) 1000 = false :=
  (c6_due_check backoffAlbum 50 (1 / 2) 1000).2.2 100 rfl (by decide)

lemma addJitter_half (ms : Int) : addJitter (ms : ℚ) (1 / 2) = ms := by
  unfold addJitter JITTER_PERCENTAGE
  norm_num

lemma calculateBackoff_half (n : Nat) :
    calculateBackoff n (1 / 2) = min (BASE_BACKOFF_MS * 2 ^ n) MAX_BACKOFF_MS := by
  unfold calculateBackoff
  exact addJitter_half _

lemma rateLimit_step (r : RefreshState) (now : Int) (msg : String) (k : Nat)
    (h : r.retry_count.getD 0 = k) :
    (rateLimitRefresh r now (1 / 2) msg).retry_count = some (k + 1)
    ∧ (rateLimitRefresh r now (1 / 2) msg).backoff_until
        = some (now + min (BASE_BACKOFF_MS * 2 ^ (k + 1)) MAX_BACKOFF_MS) := by
  refine ⟨by simp [rateLimitRefresh, h], ?_⟩
  have hb : (rateLimitRefresh r now (1 / 2) msg).backoff_until
      = some (now + calculateBackoff (r.retry_count.getD 0 + 1) (1 / 2)) := rfl
  rw [hb, h, calculateBackoff_half]

/-- C1 counterexample: on the first `RateLimitError` of a fresh album
(`retry_count` absent, i.e. 0), the code stores (jitter-neutral)
`backoff_until = now + base * 2^1 = now + 120000 ms`, while the claim's
formula `now + min(base * 2^retryCount, max)` with the album's current
`retryCount = 0` gives `now + 60000 ms`: the code increments the retry
count before computing the backoff. -/
theorem c1_backoff_counterexample :
    (rateLimitRefresh emptyRefresh 0 (1 / 2) "rate limited").backoff_until = some 120000
    ∧ specRateLimitedBackoffUntil emptyRefresh 0 = 60000
    ∧ (rateLimitRefresh emptyRefresh 0 (1 / 2) "rate limited").backoff_until
        ≠ some (specRateLimitedBackoffUntil emptyRefresh 0) := by
  have h := (rateLimit_step emptyRefresh 0 "rate limited" 0 (by simp [emptyRefresh])).2
  have hmin : (0 : Int) + min (BASE_BACKOFF_MS * 2 ^ (0 + 1)) MAX_BACKOFF_MS = 120000 := by
    decide
  have hspec : specRateLimitedBackoffUntil emptyRefresh 0 = 60000 := by
    unfold specRateLimitedBackoffUntil emptyRefresh
    decide
  refine ⟨by rw [h, hmin], hspec, ?_⟩
  rw [h, hmin, hspec]
  decide

/-- C1 amended: on `RateLimitError` the scheduler first increments
`retry_count` and computes the backoff from the incremented value:
`backoff_until = now + min(base * 2^(retryCount+1), maxBackoff)` (jitter
neutral), records `last_error`, stamps `last_checked_at = now`, and keeps
`since_id`; three consecutive rate-limit errors on a fresh album yield
backoff durations 2·base, 4·base, 8·base, so `backoff_until` strictly
increases, capped at 6 hours. -/
theorem c1_backoff_transition :
    ∀ (refresh : RefreshState) (now : Int) (msg : String),
      ((rateLimitRefresh refresh now (1 / 2) msg).retry_count
          = some (refresh.retry_count.getD 0 + 1)
       ∧ (rateLimitRefresh refresh now (1 / 2) msg).backoff_until
          = some (now + min (BASE_BACKOFF_MS * 2 ^ (refresh.retry_count.getD 0 + 1))
              MAX_BACKOFF_MS)
       ∧ (rateLimitRefresh refresh now (1 / 2) msg).last_error = some msg
       ∧ (rateLimitRefresh refresh now (1 / 2) msg).last_checked_at = some now
       ∧ (rateLimitRefresh refresh now (1 / 2) msg).since_id = refresh.since_id)
      ∧ (∀ (r0 : RefreshState) (n1 n2 n3 : Int),
          r0.retry_count = none → n1 ≤ n2 → n2 ≤ n3 →
          (rateLimitRefresh r0 n1 (1 / 2) msg).backoff_until = some (n1 + 120000)
          ∧ (rateLimitRefresh (rateLimitRefresh r0 n1 (1 / 2) msg) n2 (1 / 2)
              msg).backoff_until = some (n2 + 240000)
          ∧ (rateLimitRefresh (rateLimitRefresh (rateLimitRefresh r0 n1 (1 / 2) msg)
              n2 (1 / 2) msg) n3 (1 / 2) msg).backoff_until = some (n3 + 480000)
          ∧ n1 + 120000 < n2 + 240000 ∧ n2 + 240000 < n3 + 480000) := by
  intro refresh now msg
  constructor
  · obtain ⟨h1, h2⟩ := rateLimit_step refresh now msg (refresh.retry_count.getD 0) rfl
    exact ⟨h1, h2, rfl, rfl, rfl⟩
  · intro r0 n1 n2 n3 h0 h12 h23
    obtain ⟨r1, e1⟩ := rateLimit_step r0 n1 msg 0 (by simp [h0])
    obtain ⟨r2, e2⟩ := rateLimit_step (rateLimitRefresh r0 n1 (1 / 2) msg) n2 msg 1
      (by rw [r1]; rfl)
    obtain ⟨r3, e3⟩ := rateLimit_step
      (rateLimitRefresh (rateLimitRefresh r0 n1 (1 / 2) msg) n2 (1 / 2) msg) n3 msg 2
      (by rw [r2]; rfl)
    have m1 : min (BASE_BACKOFF_MS * 2 ^ (0 + 1)) MAX_BACKOFF_MS = 120000 := by decide
    have m2 : min (BASE_BACKOFF_MS * 2 ^ (1 + 1)) MAX_BACKOFF_MS = 240000 := by decide
    have m3 : min (BASE_BACKOFF_MS * 2 ^ (2 + 1)) MAX_BACKOFF_MS = 480000 := by decide
    refine ⟨by rw [e1, m1], by rw [e2, m2], by rw [e3, m3], by omega, by omega⟩

/-- Witness for C1's amended transition at a concrete input. -/
theorem c1_witness :
    (rateLimitRefresh emptyRefresh 3 (1 / 2) "err").last_checked_at = some 3
    ∧ (rateLimitRefresh (rateLimitRefresh emptyRefresh 3 (1 / 2) "err") 4 (1 / 2)
        "err").backoff_until = some (4 + 240000) :=
  ⟨(c1_backoff_transition emptyRefresh 3 "err").1.2.2.2.1,
   ((c1_backoff_transition emptyRefresh 3 "err").2 emptyRefresh 3 4 5 rfl
     (by decide) (by decide)).2.1⟩

/-- C7: outcome classification of the remote tag-timeline fetch: network
failure raises `UpstreamError`; status 429 raises `RateLimitError` carrying
the optional Retry-After seconds; any status ≥ 500 raises `UpstreamError`;
any other non-2xx yields an empty photo array; a 2xx yields the normalized
photos. -/
theorem c7_timeline_classification :
    fetchTagTimeline .networkFailure = .error .upstream
    ∧ (∀ (ra : Option Nat) (body : List Status),
        fetchTagTimeline (.response 429 ra body) = .error (.rateLimit (retryAfterOf ra)))
    ∧ (∀ (s : Nat) (ra : Option Nat) (body : List Status), 500 ≤ s →
        fetchTagTimeline (.response s ra body) = .error .upstream)
    ∧ (∀ (s : Nat) (ra : Option Nat) (body : List Status),
        s ≠ 429 → s < 500 → ¬ (200 ≤ s ∧ s ≤ 299) →
        fetchTagTimeline (.response s ra body) = .ok [])
    ∧ (∀ (s : Nat) (ra : Option Nat) (body : List Status), 200 ≤ s → s ≤ 299 →
        fetchTagTimeline (.response s ra body) = .ok (normalizeStatusesToPhotos body)) := by
  refine ⟨rfl, fun ra body => rfl, ?_, ?_, ?_⟩
  · intro s ra body h5
    simp only [fetchTagTimeline]
    rw [if_neg (by omega), if_pos h5]
  · intro s ra body h429 h5 h2xx
    simp only [fetchTagTimeline]
    rw [if_neg h429, if_neg (by omega), if_pos h2xx]
  · intro s ra body h200 h299
    simp only [fetchTagTimeline]
    rw [if_neg (by omega), if_neg (by omega), if_neg (not_not_intro ⟨h200, h299⟩)]

/-- Witness for C7 at concrete statuses. -/
theorem c7_witness :
    fetchTagTimeline (.response 503 none []) = .error .upstream
    ∧ fetchTagTimeline (.response 404 none []) = .ok []
    ∧ fetchTagTimeline (.response 200 none []) = .ok (normalizeStatusesToPhotos []) :=
  ⟨c7_timeline_classification.2.2.1 503 none [] (by decide),
   c7_timeline_classification.2.2.2.1 404 none [] (by decide) (by decide) (by decide),
   c7_timeline_classification.2.2.2.2 200 none [] (by decide) (by decide)⟩

lemma jsOrI_some (n d : Int) : jsOrI (some n) d = if n = 0 then d else n := rfl

lemma clampLimit_bounds (l : Option Int) : 1 ≤ clampLimit l ∧ clampLimit l ≤ 40 := by
  unfold clampLimit clamp
  exact ⟨le_max_left 1 _, max_le (by norm_num) (min_le_left _ _)⟩

lemma clampLimit_some (n : Int) (h1 : 1 ≤ n) (h40 : n ≤ 40) : clampLimit (some n) = n := by
  unfold clampLimit
  rw [jsOrI_some, if_neg (by omega)]
  unfold clamp
  rw [min_eq_right h40, max_eq_right h1]

lemma clampLimit_idem (l : Option Int) : clampLimit (some (clampLimit l)) = clampLimit l :=
  clampLimit_some _ (clampLimit_bounds l).1 (clampLimit_bounds l).2

lemma tags_opts_congr (fetchTag : String → Int → Except FetchError (List Photo))
    (tagsInput : List String) (o1 o2 : FetchOpts)
    (h1 : clampLimit o1.limit = clampLimit o2.limit)
    (h2 : tagmodeOf o1.tagmode = tagmodeOf o2.tagmode) :
    getLatestPhotosForTags fetchTag tagsInput o1
      = getLatestPhotosForTags fetchTag tagsInput o2 := by
  unfold getLatestPhotosForTags
  rw [h1, h2]

lemma users_opts_congr (apiGet : String → Int → Except FetchError (List Status))
    (accountIds : List String) (o1 o2 : FetchOpts)
    (h1 : clampLimit o1.limit = clampLimit o2.limit) :
    getLatestPhotosForUsers apiGet accountIds o1
      = getLatestPhotosForUsers apiGet accountIds o2 := by
  unfold getLatestPhotosForUsers
  rw [h1]

lemma compound_opts_congr (apiGet : String → Int → Except FetchError (List Status))
    (fetchTag : String → Int → Except FetchError (List Photo))
    (input : CompoundInput) (o1 o2 : FetchOpts)
    (h1 : clampLimit o1.limit = clampLimit o2.limit)
    (h2 : tagmodeOf o1.tagmode = tagmodeOf o2.tagmode) :
    getLatestPhotosCompound apiGet fetchTag input o1
      = getLatestPhotosCompound apiGet fetchTag input o2 := by
  unfold getLatestPhotosCompound
  rw [h1, h2]

lemma tags_ok_length (fetchTag : String → Int → Except FetchError (List Photo))
    (tagsInput : List String) (opts : FetchOpts) (res : List Photo)
    (h : getLatestPhotosForTags fetchTag tagsInput opts = .ok res) :
    res.length ≤ (clampLimit opts.limit).toNat := by
  unfold getLatestPhotosForTags at h
  by_cases htags : (tagsClean tagsInput).length = 0
  · rw [if_pos htags] at h
    cases h
    simp
  · rw [if_neg htags] at h
    split at h
    · exact absurd h (by simp)
    · cases h
      exact List.length_take_le _ _

lemma users_ok_length (apiGet : String → Int → Except FetchError (List Status))
    (accountIds : List String) (opts : FetchOpts) (res : List Photo)
    (h : getLatestPhotosForUsers apiGet accountIds opts = .ok res) :
    res.length ≤ (clampLimit opts.limit).toNat := by
  unfold getLatestPhotosForUsers at h
  split at h
  · exact absurd h (by simp)
  · cases h
    exact List.length_take_le _ _

lemma compound_ok_length (apiGet : String → Int → Except FetchError (List Status))
    (fetchTag : String → Int → Except FetchError (List Photo))
    (input : CompoundInput) (opts : FetchOpts) (res : List Photo)
    (h : getLatestPhotosCompound apiGet fetchTag input opts = .ok res) :
    res.length ≤ (clampLimit opts.limit).toNat := by
  unfold getLatestPhotosCompound at h
  split at h
  · have := tags_ok_length _ _ _ _ h
    rwa [clampLimit_idem] at this
  · split at h
    · have := users_ok_length _ _ _ _ h
      rwa [clampLimit_idem] at this
    · split at h
      · exact absurd h (by simp)
      · cases h
        exact List.length_take_le _ _

/-- C5: a requested `limit=1000` behaves exactly like `limit=40` in all three
query shapes, and each shape returns at most 40 photos. -/
theorem c5_limit_clamp :
    ∀ (fetchTag : String → Int → Except FetchError (List Photo))
      (apiGet : String → Int → Except FetchError (List Status))
      (tagsInput accountIds : List String) (input : CompoundInput) (tm : Option String),
      getLatestPhotosForTags fetchTag tagsInput ⟨some 1000, tm⟩
        = getLatestPhotosForTags fetchTag tagsInput ⟨some 40, tm⟩
      ∧ getLatestPhotosForUsers apiGet accountIds ⟨some 1000, tm⟩
        = getLatestPhotosForUsers apiGet accountIds ⟨some 40, tm⟩
      ∧ getLatestPhotosCompound apiGet fetchTag input ⟨some 1000, tm⟩
        = getLatestPhotosCompound apiGet fetchTag input ⟨some 40, tm⟩
      ∧ (∀ res, getLatestPhotosForTags fetchTag tagsInput ⟨some 1000, tm⟩ = .ok res →
          res.length ≤ 40)
      ∧ (∀ res, getLatestPhotosForUsers apiGet accountIds ⟨some 1000, tm⟩ = .ok res →
          res.length ≤ 40)
      ∧ (∀ res, getLatestPhotosCompound apiGet fetchTag input ⟨some 1000, tm⟩ = .ok res →
          res.length ≤ 40) := by
  intro fT aG ti ai inp tm
  have hcl : clampLimit (some 1000) = clampLimit (some 40) := by decide
  have h40 : (clampLimit (some 1000)).toNat = 40 := by decide
  refine ⟨tags_opts_congr fT ti ⟨some 1000, tm⟩ ⟨some 40, tm⟩ hcl rfl,
          users_opts_congr aG ai ⟨some 1000, tm⟩ ⟨some 40, tm⟩ hcl,
          compound_opts_congr aG fT inp ⟨some 1000, tm⟩ ⟨some 40, tm⟩ hcl rfl, ?_, ?_, ?_⟩
  · intro res h
    have := tags_ok_length fT ti ⟨some 1000, tm⟩ res h
    exact le_of_le_of_eq this h40
  · intro res h
    have := users_ok_length aG ai ⟨some 1000, tm⟩ res h
    exact le_of_le_of_eq this h40
  · intro res h
    have := compound_ok_length aG fT inp ⟨some 1000, tm⟩ res h
    exact le_of_le_of_eq this h40

/-- A sub-fetch behavior that always yields no photos. -/
def emptyTagFetch : String → Int → Except FetchError (List Photo) := fun _ _ => .ok []

/-- A user-statuses behavior that always yields no statuses. -/
def emptyApiGet : String → Int → Except FetchError (List Status) := fun _ _ => .ok []

/-- Witness for C5 at a concrete input. -/
theorem c5_witness :
    getLatestPhotosForTags emptyTagFetch ["a"] ⟨some 1000, some "any"⟩
      = getLatestPhotosForTags emptyTagFetch ["a"] ⟨some 40, some "any"⟩
    ∧ ([] : List Photo).length ≤ 40 :=
  ⟨(c5_limit_clamp emptyTagFetch emptyApiGet ["a"] [] ⟨[], []⟩ (some "any")).1,
   (c5_limit_clamp emptyTagFetch emptyApiGet ["a"] [] ⟨[], []⟩ (some "any")).2.2.2.1 [] rfl⟩

/-- C3 amended (tag-only path): the tag-mode filter runs on the full union
of fetched candidates before sorting and truncation, so whenever the
matching candidates fit within the clamped limit, every matching candidate
appears in the result — no match is dropped for a more recent non-match. -/
theorem c3_filter_before_truncation :
    ∀ (fetchTag : String → Int → Except FetchError (List Photo))
      (tagsInput : List String) (opts : FetchOpts)
      (perTagLists : List (List Photo)) (p : Photo),
      seqExcept ((tagsClean tagsInput).map (fun t =>
          fetchTag t (min (clampLimit opts.limit * 5) 200))) = .ok perTagLists →
      p ∈ unionById perTagLists.flatten →
      tagPred (tagmodeOf opts.tagmode) (tagsClean tagsInput) p = true →
      ((unionById perTagLists.flatten).filter
          (tagPred (tagmodeOf opts.tagmode) (tagsClean tagsInput))).length
        ≤ (clampLimit opts.limit).toNat →
      ∃ res, getLatestPhotosForTags fetchTag tagsInput opts = .ok res ∧ p ∈ res := by
  intro fT ti opts lists p hseq hp hpred hlen
  by_cases htags : (tagsClean ti).length = 0
  · rw [List.length_eq_zero.mp htags] at hseq
    have hnil : lists = [] := by
      have : (Except.ok [] : Except FetchError (List (List Photo))) = .ok lists := hseq
      cases this
      rfl
    rw [hnil] at hp
    simp [unionById] at hp
  · have hval : getLatestPhotosForTags fT ti opts
        = .ok ((sortByCreatedDesc ((unionById lists.flatten).filter
            (tagPred (tagmodeOf opts.tagmode) (tagsClean ti)))).take
              (clampLimit opts.limit).toNat) := by
      unfold getLatestPhotosForTags
      rw [if_neg htags, hseq]
    refine ⟨_, hval, ?_⟩
    have hmemf : p ∈ (unionById lists.flatten).filter
        (tagPred (tagmodeOf opts.tagmode) (tagsClean ti)) :=
      List.mem_filter.mpr ⟨hp, hpred⟩
    have hmems : p ∈ sortByCreatedDesc ((unionById lists.flatten).filter
        (tagPred (tagmodeOf opts.tagmode) (tagsClean ti))) := by
      unfold sortByCreatedDesc
      exact (List.mem_insertionSort _).mpr hmemf
    have hlens : (sortByCreatedDesc ((unionById lists.flatten).filter
        (tagPred (tagmodeOf opts.tagmode) (tagsClean ti)))).length
          ≤ (clampLimit opts.limit).toNat := by
      unfold sortByCreatedDesc
      rw [(List.perm_insertionSort _ _).length_eq]
      exact hlen
    rw [List.take_of_length_le hlens]
    exact hmems

/-- Witness for C3's amended tag-path guarantee at a concrete input. -/
theorem c3_witness :
    ∃ res, getLatestPhotosForTags (fun _ _ => Except.ok [photoA]) ["a"] ⟨none, none⟩
        = .ok res ∧ photoA ∈ res :=
  c3_filter_before_truncation (fun _ _ => Except.ok [photoA]) ["a"] ⟨none, none⟩
    [[photoA]] photoA rfl (by decide) (by decide) (by decide)

/-- An image attachment used by the compound-path counterexample. -/
def imgAttachment : MediaAttachment := ⟨some "image", some "http://img", none, none⟩

/-- A status with one image attachment, a given id, timestamp and tag set. -/
def mkStatus (i : String) (t : Int) (tags : List String) : Status :=
  ⟨i, t, none, none, none, none, none, tags, [imgAttachment]⟩

def c3s1 : Status := mkStatus "s1" 10 ["a"]

def c3s2 : Status := mkStatus "s2" 20 []

def c3s3 : Status := mkStatus "s3" 30 []

def c3s4 : Status := mkStatus "s4" 40 []

/-- The remote user-statuses behavior of the compound counterexample:
account `u` has four posts, only the oldest of which carries tag `a`. -/
def c3ApiGet : String → Int → Except FetchError (List Status) :=
  fun i _ => if i = "u" then .ok [c3s4, c3s3, c3s2, c3s1] else .ok []

/-- The photo normalized from the oldest (tag-matching) post. -/
def c3Photo : Photo :=
  ⟨"s1", 10, none, none, none, none, ["a"], some "http://img", some "http://img"⟩

/-- C3 counterexample (compound path): with `limit=1`, `tags=[a]`,
`users=[u]`, the inner user fetch truncates the candidate set to the clamped
headroom (3) *before* the tag filter runs, so the only tag-matching
candidate — the oldest post `s1`, fetched from the remote — is dropped in
favor of more recent non-matching posts and the compound resolve returns no
photos at all, refuting the claim that the filter precedes every truncation
in all three shapes. -/
theorem c3_counterexample :
    getLatestPhotosCompound c3ApiGet emptyTagFetch ⟨["a"], ["u"]⟩ ⟨some 1, some "any"⟩
      = .ok []
    ∧ c3ApiGet "u" 10 = .ok [c3s4, c3s3, c3s2, c3s1]
    ∧ c3Photo ∈ statusToPhotos c3s1
    ∧ tagPred (tagmodeOf (some "any")) (tagsClean ["a"]) c3Photo = true := by
  refine ⟨rfl, rfl, by decide, by decide⟩

/-- C2 amended: inside the resolver's multi-target paths a sub-fetch failure
is not collected per-target — it propagates and the whole resolve returns
that error, discarding sibling results (the `{photos, errors}` partial
contract exists only at the HTTP query boundary, for account-resolution
failures). -/
theorem c2_subfetch_propagation :
    (∀ (fetchTag : String → Int → Except FetchError (List Photo))
       (tagsInput : List String) (opts : FetchOpts) (e : FetchError),
       seqExcept ((tagsClean tagsInput).map (fun t =>
           fetchTag t (min (clampLimit opts.limit * 5) 200))) = .error e →
       getLatestPhotosForTags fetchTag tagsInput opts = .error e)
    ∧ (∀ (apiGet : String → Int → Except FetchError (List Status))
        (accountIds : List String) (opts : FetchOpts) (e : FetchError),
        seqExcept (accountIds.map (fun i =>
            apiGet i (clamp ⌈(clampLimit opts.limit : ℚ) * (3 / 2)⌉ 10 40))) = .error e →
        getLatestPhotosForUsers apiGet accountIds opts = .error e) := by
  constructor
  · intro fT ti opts e hseq
    by_cases htags : (tagsClean ti).length = 0
    · rw [List.length_eq_zero.mp htags] at hseq
      exact absurd hseq (by simp [seqExcept])
    · unfold getLatestPhotosForTags
      rw [if_neg htags, hseq]
  · intro aG ai opts e hseq
    unfold getLatestPhotosForUsers
    rw [hseq]

/-- Witness for C2's amended propagation at a concrete input. -/
theorem c2_witness :
    getLatestPhotosForTags (fun _ _ => Except.error FetchError.upstream) ["a"]
      ⟨none, none⟩ = .error .upstream :=
  c2_subfetch_propagation.1 (fun _ _ => Except.error FetchError.upstream) ["a"]
    ⟨none, none⟩ .upstream rfl

/-- A photo carried by the succeeding sibling sub-fetch of the C2
counterexample. -/
def c2Photo : Photo := ⟨"pa", 5, none, none, none, none, ["a"], none, none⟩

/-- Tag sub-fetch behavior: tag `a` succeeds with one photo, tag `b` fails
with a retryable `UpstreamError`. -/
def c2FetchTag : String → Int → Except FetchError (List Photo) :=
  fun t _ => if t = "a" then .ok [c2Photo] else .error .upstream

def c2Status : Status := mkStatus "pu" 6 []

/-- User sub-fetch behavior: account `u1` succeeds with one status, account
`u2` fails with a retryable `UpstreamError`. -/
def c2ApiGet : String → Int → Except FetchError (List Status) :=
  fun i _ => if i = "u1" then .ok [c2Status] else .error .upstream

/-- C2 counterexample: in a two-tag resolve (and a two-account resolve) one
sub-fetch failing with a retryable error aborts the whole resolve — the
result is the bare error and the successfully fetched sibling's photos are
discarded, not returned alongside a per-target error list. -/
theorem c2_counterexample :
    getLatestPhotosForTags c2FetchTag ["a", "b"] ⟨none, none⟩ = .error .upstream
    ∧ c2FetchTag "a" 100 = .ok [c2Photo]
    ∧ getLatestPhotosForUsers c2ApiGet ["u1", "u2"] ⟨none, none⟩ = .error .upstream
    ∧ c2ApiGet "u1" 30 = .ok [c2Status] := by
  exact ⟨rfl, rfl, rfl, rfl⟩

end PixelFree
